import Mathlib

/-!
Shallow embedding of the UFW Manager TUI (src/ufwmanager.py) for checking the
natural-language specification against the code.

Python strings are modelled as Lean `String` (a structure around `List Char`);
all string primitives used by the program (`strip`, `lower`, `isdigit`,
`split`, substring containment, regex fragments) are re-implemented below with
Python's semantics, operating on the underlying `List Char`.  Python `dict`s
keyed by strings are modelled as association lists with unique keys, with
insertion preserving the position of an existing key and appending a fresh
one, exactly as CPython dicts behave under iteration.
-/

namespace UFWManager

/-! ## Python string primitives -/

/-- The characters Python's `str.strip()` removes (ASCII whitespace). -/
def isPyWs (c : Char) : Bool :=
  c == ' ' || c == '\t' || c == '\n' || c == '\r' ||
    c == Char.ofNat 11 || c == Char.ofNat 12

/-- `str.strip()` on the character list: drop ASCII whitespace at both ends. -/
def stripL (l : List Char) : List Char :=
  ((l.dropWhile isPyWs).reverse.dropWhile isPyWs).reverse

/-- `str.strip(chars)` with an explicit character set. -/
def stripSetL (set : List Char) (l : List Char) : List Char :=
  ((l.dropWhile (set.contains ·)).reverse.dropWhile (set.contains ·)).reverse

/-- `str.strip()` lifted to `String`. -/
def pyStrip (s : String) : String := ⟨stripL s.data⟩

/-- `str.strip(chars)` lifted to `String`. -/
def pyStripSet (set : List Char) (s : String) : String := ⟨stripSetL set s.data⟩

/-- `str.lower()` (ASCII; every character appearing in the program is ASCII). -/
def pyLower (s : String) : String := ⟨s.data.map Char.toLower⟩

/-- `str.isdigit()`: non-empty and all digits (ASCII). -/
def pyIsDigit (s : String) : Bool :=
  !s.data.isEmpty && s.data.all Char.isDigit

/-- `int(s)` for an all-digit string `s`. -/
def pyInt (s : String) : Nat :=
  s.data.foldl (fun n c => n * 10 + (c.toNat - 48)) 0

/-- Python substring containment `needle in hay`. -/
def containsSub (needle : List Char) : List Char → Bool
  | [] => needle.isEmpty
  | c :: rest => needle.isPrefixOf (c :: rest) || containsSub needle rest

/-- `hay.split(needle, 1)`: split at the leftmost occurrence, returning the
parts before and after; `none` when the needle does not occur (in which case
Python's `split(...)[1]` raises). -/
def splitOnceL (needle : List Char) : List Char → Option (List Char × List Char)
  | [] => if needle.isEmpty then some ([], []) else none
  | c :: rest =>
    if needle.isPrefixOf (c :: rest) then some ([], (c :: rest).drop needle.length)
    else
      match splitOnceL needle rest with
      | some (pre, post) => some (c :: pre, post)
      | none => none

/-- `str.split()` with no argument: split on whitespace runs, dropping empty
pieces. -/
def splitWsL (l : List Char) : List (List Char) :=
  (l.foldr
    (fun c acc =>
      if isPyWs c then [] :: acc
      else
        match acc with
        | [] => [[c]]
        | w :: ws => (c :: w) :: ws) []).filter (· ≠ [])

/-- Splitting file contents at newline characters; `for line in f` iterates the
resulting pieces (Python keeps the terminators, but every consumer below
strips the line, so dropping them is equivalent). -/
def splitNL : List Char → List (List Char)
  | [] => [[]]
  | c :: rest =>
    if c = '\n' then [] :: splitNL rest
    else
      match splitNL rest with
      | [] => [[c]]
      | l :: ls => (c :: l) :: ls

/-! ## Annotation stores (Python dicts keyed by index strings) -/

/-- An annotation store: `self.notes` / `self.services`, a Python
`dict[str, str]` as an insertion-ordered association list with unique keys. -/
abbrev Store := List (String × String)

/-- `d[k] = v`: replace in place when the key exists, else append. -/
def dictInsert (d : Store) (k v : String) : Store :=
  if d.any (fun p => p.1 == k) then
    d.map (fun p => if p.1 == k then (k, v) else p)
  else d ++ [(k, v)]

/-- `k in d`. -/
def dictHas (d : Store) (k : String) : Bool := d.any (fun p => p.1 == k)

/-- `d.get(k)` returning `none` when absent. -/
def dictGet? (d : Store) (k : String) : Option String :=
  (d.find? (fun p => p.1 == k)).map (·.2)

/-- `d.get(k, dflt)`. -/
def dictGetD (d : Store) (k dflt : String) : String := (dictGet? d k).getD dflt

/-- `del d[k]` (no-op when absent; the program guards with `k in d`). -/
def dictRemove (d : Store) (k : String) : Store :=
  d.filter (fun p => !(p.1 == k))

/-- Python `d1 == d2`: equal as key-value mappings, order-insensitively. -/
def dictEq (d1 d2 : Store) : Bool :=
  d1.all (fun p => dictGet? d2 p.1 == some p.2) &&
    d2.all (fun p => dictGet? d1 p.1 == some p.2)

/-! ## Loading and saving the annotation files (`_setup_and_load_files`,
`_save_notes_or_services`) -/

/-- `data_dict.clear()`. -/
def dictClear (_ : Store) : Store := []

/-- One iteration of the load loop: `if ':' in line: num, text =
line.split(':', 1); if num.strip().isdigit(): data_dict[num.strip()] =
text.strip()`. -/
def parseLine (acc : Store) (line : List Char) : Store :=
  if line.contains ':' then
    let num := line.takeWhile (fun c => !(c == ':'))
    let text := (line.dropWhile (fun c => !(c == ':'))).drop 1
    if pyIsDigit ⟨stripL num⟩ then dictInsert acc ⟨stripL num⟩ ⟨stripL text⟩
    else acc
  else acc

/-- The load half of `_setup_and_load_files` for one store: clear the dict,
then fill it line by line from the file contents. -/
def loadInto (old : Store) (contents : String) : Store :=
  (splitNL contents.data).foldl parseLine (dictClear old)

/-- Loading into an empty store. -/
def loadStore (contents : String) : Store := loadInto [] contents

/-- `_setup_and_load_files`: both stores are cleared and refilled from their
files. -/
def setupAndLoad (notes services : Store) (notesFileC servicesFileC : String) :
    Store × Store :=
  (loadInto notes notesFileC, loadInto services servicesFileC)

/-- Stable insertion of one entry into a list sorted by numeric key
(implements the stability of Python's `sorted` with key `int(item[0])`). -/
def insertSorted (p : String × String) : Store → Store
  | [] => [p]
  | q :: qs =>
    if pyInt q.1 < pyInt p.1 then q :: insertSorted p qs else p :: q :: qs

/-- `sorted(valid_items, key=lambda item: int(item[0]))`. -/
def sortByNumKey (l : Store) : Store := l.foldr insertSorted []

/-- One persisted record: `f.write(f"{num}:{text}\n")`. -/
def lineOf (p : String × String) : List Char :=
  p.1.data ++ [':'] ++ p.2.data ++ ['\n']

/-- `_save_notes_or_services`: keep entries with an all-digit key, sort them
by numeric key, and write one `num:text` line (with trailing newline) each.
Returns the full file contents (the file is overwritten). -/
def saveStore (d : Store) : String :=
  let validItems := d.filter (fun p => pyIsDigit p.1)
  ⟨((sortByNumKey validItems).map lineOf).flatten⟩

/-! ## The reindexer (`_delete_firewall_rule`, lines 121–131) -/

/-- The per-store reindex loop: drop the entry at the deleted index, shift
entries above it down by one, pass entries below through unchanged.  Entries
are accumulated into a fresh dict in iteration order. -/
def reindexAfterDelete (d : Store) (deletedNum : Nat) : Store :=
  d.foldl
    (fun newData p =>
      let num := pyInt p.1
      if num == deletedNum then newData
      else if deletedNum < num then dictInsert newData (toString (num - 1)) p.2
      else dictInsert newData p.1 p.2) []

/-- The two-store reindex block of `_delete_firewall_rule`, including the
`if data_dict == self.notes` dispatch, which compares dicts by value: on the
second loop iteration `data_dict` is the old services dict and `self.notes`
already holds the reindexed notes, so when those two are equal as mappings the
code assigns the reindexed services to `self.notes` and leaves
`self.services` untouched.  Returns (notes, services) after the block. -/
def deleteReindexBoth (notes services : Store) (deletedNum : Nat) :
    Store × Store :=
  let newNotes := reindexAfterDelete notes deletedNum
  let newServices := reindexAfterDelete services deletedNum
  if dictEq services newNotes then (newServices, services)
  else (newNotes, newServices)

/-! ## The add/edit form (`_get_rule_input_from_form`) -/

/-- The dropdown vocabularies of the form. -/
def actions : List String := ["allow", "deny", "reject", "limit"]

/-- Protocol dropdown options; index 0 is the initial selection. -/
def protocols : List String := ["tcp", "udp", "any"]

/-- Direction dropdown options. -/
def directions : List String := ["in", "out"]

/-- The form's field values plus the currently focused field index
(0 Action, 1 Direction, 2 Protocol, 3 Port, 4 From/To IP, 5 Service,
6 Note). -/
structure FormState where
  actionIdx : Nat
  directionIdx : Nat
  protocolIdx : Nat
  port : String
  fromIp : String
  service : String
  note : String
  currentField : Nat
deriving DecidableEq

/-- The fresh form: dropdowns at index 0, Port/Service/Note empty, From/To IP
defaulted to "any", focus on Action. -/
def initialFormState : FormState :=
  { actionIdx := 0, directionIdx := 0, protocolIdx := 0, port := "",
    fromIp := "any", service := "", note := "", currentField := 0 }

/-- The selected action string, `fields["Action"][0][fields["Action"][1]]`. -/
def actionOf (s : FormState) : String := actions.getD s.actionIdx ""

/-- The selected direction string. -/
def directionOf (s : FormState) : String := directions.getD s.directionIdx ""

/-- The selected protocol string. -/
def protocolOf (s : FormState) : String := protocols.getD s.protocolIdx ""

/-- The command builder (lines 333–336): `<action> <direction>`, an optional
`from` clause, the mandatory `to any port <port>`, an optional `proto`
clause. -/
def buildCmd (s : FormState) : String :=
  let rule := actionOf s ++ " " ++ directionOf s
  let rule := if pyLower s.fromIp ≠ "any" then rule ++ " from " ++ s.fromIp else rule
  let rule := rule ++ " to any port " ++ s.port
  if pyLower (protocolOf s) ≠ "any" then rule ++ " proto " ++ protocolOf s
  else rule

/-- The commit step after Enter: reject the whole form when the port is not
all-digit, otherwise return the built command with the service and note
texts. -/
def formCommit (s : FormState) : Option (String × String × String) :=
  if pyIsDigit s.port then some (buildCmd s, s.service, s.note) else none

/-- `key in [curses.KEY_ENTER, 10, 13]`. -/
def isEnterKey (k : Nat) : Bool := k == 343 || k == 10 || k == 13

/-- `key in [curses.KEY_BACKSPACE, 127, 8]`. -/
def isBackKey (k : Nat) : Bool := k == 263 || k == 127 || k == 8

/-- Text-field editing: backspace drops the last character; a printable key
(32–126) is appended unless the field already has `maxLen` characters; other
keys are ignored. -/
def textEdit (v : String) (k : Nat) (maxLen : Nat) : String :=
  if isBackKey k then ⟨v.data.dropLast⟩
  else if 32 ≤ k ∧ k ≤ 126 then
    if maxLen ≤ v.data.length then v else ⟨v.data ++ [Char.ofNat k]⟩
  else v

/-- One non-terminating iteration of the form's key loop (lines 311–324):
field navigation (KEY_UP 259 / KEY_BTAB 353 up, KEY_DOWN 258 / TAB 9 down,
wrapping over the 7 fields), dropdown cycling (KEY_LEFT 260 / KEY_RIGHT 261)
for the Action, Direction and Protocol fields, and text editing with the
per-field length limits 5, 15, 18, 43 for Port, From/To IP, Service, Note. -/
def formStep (s : FormState) (k : Nat) : FormState :=
  if k == 259 || k == 353 then { s with currentField := (s.currentField + 6) % 7 }
  else if k == 258 || k == 9 then { s with currentField := (s.currentField + 1) % 7 }
  else if s.currentField == 0 then
    if k == 260 then { s with actionIdx := (s.actionIdx + 3) % 4 }
    else if k == 261 then { s with actionIdx := (s.actionIdx + 1) % 4 }
    else s
  else if s.currentField == 1 then
    if k == 260 then { s with directionIdx := (s.directionIdx + 1) % 2 }
    else if k == 261 then { s with directionIdx := (s.directionIdx + 1) % 2 }
    else s
  else if s.currentField == 2 then
    if k == 260 then { s with protocolIdx := (s.protocolIdx + 2) % 3 }
    else if k == 261 then { s with protocolIdx := (s.protocolIdx + 1) % 3 }
    else s
  else if s.currentField == 3 then { s with port := textEdit s.port k 5 }
  else if s.currentField == 4 then { s with fromIp := textEdit s.fromIp k 15 }
  else if s.currentField == 5 then { s with service := textEdit s.service k 18 }
  else { s with note := textEdit s.note k 43 }

/-- How an interactive form session ends (or has not ended yet). -/
inductive FormOutcome where
  /-- The key list ran out with the loop still waiting for input. -/
  | stillOpen (s : FormState)
  /-- ESC: the function returns `None` immediately. -/
  | cancelled
  /-- Enter with a non-digit port: the function sets the error status message
  and returns `None`; the window is closed and the field values discarded. -/
  | rejected (s : FormState)
  /-- Enter with an all-digit port: the function returns the built command
  with the service and note texts. -/
  | committed (s : FormState)
deriving DecidableEq

/-- Feeding a key sequence to the form loop.  Enter (343/10/13) breaks the
loop and runs the port validation; ESC (27) returns `None`; any other key is
handled by `formStep`. -/
def runForm (s : FormState) : List Nat → FormOutcome
  | [] => .stillOpen s
  | k :: ks =>
    if isEnterKey k then
      if pyIsDigit s.port then .committed s else .rejected s
    else if k == 27 then .cancelled
    else runForm (formStep s k) ks

/-- The value `_get_rule_input_from_form` returns for a finished session. -/
def formReturn : FormOutcome → Option (String × String × String)
  | .committed s => some (buildCmd s, s.service, s.note)
  | _ => none

/-- The per-field length bounds of the form (5, 15, 18, 43). -/
def lenInv (s : FormState) : Prop :=
  s.port.data.length ≤ 5 ∧ s.fromIp.data.length ≤ 15 ∧
    s.service.data.length ≤ 18 ∧ s.note.data.length ≤ 43

/-! ## Pre-populating the edit form from an existing rule (lines 247–266),
including the two regex fragments used there -/

/-- Python regex `\w` over ASCII: letters, digits, underscore. -/
def isWordChar (c : Char) : Bool := c.isAlphanum || c == '_'

/-- A `\b` word boundary holds before the current position given the previous
character (none at the start of the text). -/
def boundaryOk (prev : Option Char) : Bool :=
  match prev with
  | none => true
  | some c => !isWordChar c

/-- Try to match one literal word at the current position, requiring a word
boundary after it. -/
def tryWord (w : List Char) (l : List Char) : Option (List Char) :=
  if w.isPrefixOf l then
    match l.drop w.length with
    | [] => some w
    | c :: _ => if isWordChar c then none else some w
  else none

/-- First word of the alternation that matches (the four action words start
with distinct letters, so at most one can match at a position). -/
def tryWords : List (List Char) → List Char → Option (List Char)
  | [], _ => none
  | w :: ws, l =>
    match tryWord w l with
    | some m => some m
    | none => tryWords ws l

/-- The optional group `(\s+tok)?`: greedily consume whitespace, then the
literal token; yields the matched extension and the rest. -/
def optTok (tok : List Char) (l : List Char) : List Char × List Char :=
  let ws := l.takeWhile isPyWs
  let rest := l.drop ws.length
  if !ws.isEmpty && tok.isPrefixOf rest then (ws ++ tok, rest.drop tok.length)
  else ([], l)

/-- Matching `\b(allow|deny|reject|limit)\b(\s+in)?(\s+out)?` anchored at the
current position; returns group 0. -/
def matchActionAt (prev : Option Char) (l : List Char) : Option (List Char) :=
  if boundaryOk prev then
    match tryWords ["allow".data, "deny".data, "reject".data, "limit".data] l with
    | none => none
    | some w =>
      let rest := l.drop w.length
      let (e1, r1) := optTok "in".data rest
      let (e2, _) := optTok "out".data r1
      some (w ++ e1 ++ e2)
  else none

/-- `re.search` for the action/direction pattern: leftmost match wins. -/
def searchAD : Option Char → List Char → Option (List Char)
  | _, [] => none
  | prev, c :: rest =>
    match matchActionAt prev (c :: rest) with
    | some m => some m
    | none => searchAD (some c) rest

/-- `re.search(r'(\d+)', text)`: the first run of digits, if any. -/
def firstDigitRun (l : List Char) : Option (List Char) :=
  match l.dropWhile (fun c => !c.isDigit) with
  | [] => none
  | rest => some (rest.takeWhile Char.isDigit)

/-- `if action in rule_text: fields[...][1] = i`, iterated over the indexed
vocabulary: the last substring hit wins, starting from default 0. -/
def lastMatchIdx (rt : List Char) : List (List Char) → Nat → Nat → Nat
  | [], _, acc => acc
  | w :: ws, i, acc =>
    lastMatchIdx rt ws (i + 1) (if containsSub w rt then i else acc)

/-- The From/To IP part of the pre-population (lines 257–263): search for
the action phrase, split the lowered text at its first plain occurrence,
strip the remainder, take its first whitespace token, and keep it unless it
is the external tool's "anywhere" placeholder.  `none` marks the path where
Python raises (`from_part.split()[0]` on an empty remainder). -/
def prepopFromIp (rt : List Char) : Option String :=
  match searchAD none rt with
  | none => some "any"
  | some m =>
    match splitOnceL m rt with
    | none => none
    | some (_, after) =>
      let fromPart := stripL after
      match splitWsL fromPart with
      | [] => none
      | t :: _ =>
        if !t.isEmpty && ⟨t.map Char.toLower⟩ ≠ ("anywhere" : String) then some ⟨t⟩
        else some "any"

/-- Pre-population of the form from the selected rule row
`(bracketed-number, description)` and the two stores.  Returns `none` on the
path where Python raises.  The Protocol field is never assigned here: it
keeps its initial index 0. -/
def prepopulate (existingRule : String × String) (services notes : Store) :
    Option FormState :=
  let ruleNum := pyStripSet "[] ".data existingRule.1
  let rt := existingRule.2.data.map Char.toLower
  let aIdx := lastMatchIdx rt (actions.map String.data) 0 0
  let dIdx := lastMatchIdx rt (directions.map (fun d => " ".data ++ d.data ++ " ".data)) 0 0
  let port : String := match firstDigitRun rt with
    | some ds => ⟨ds⟩
    | none => ""
  (prepopFromIp rt).map fun ip =>
    { actionIdx := aIdx, directionIdx := dIdx, protocolIdx := 0,
      port := port, fromIp := ip,
      service := dictGetD services ruleNum "",
      note := dictGetD notes ruleNum "", currentField := 0 }

/-! ## Effects of `_add_or_edit_rule`, `_delete_firewall_rule`,
`_confirm_action` and `_panic_mode` -/

/-- The externally visible effects of one operation: the shell commands issued
(in order), the two in-memory stores afterwards, the annotation files written,
and the status message assigned (none = left as it was). -/
structure EffectResult where
  commands : List String
  notes : Store
  services : Store
  savedFiles : List String
  status : Option String
deriving DecidableEq

/-- The rule diff of the add path: `new_rules_set - old_rules_set` over
`(bracketed-number, description)` pairs (rule numbers are unique, so the list
has the same members as the Python set). -/
def ruleDiff (before after : List (String × String)) : List (String × String) :=
  after.filter (fun r => !(before.contains r))

/-- The body of `_add_or_edit_rule` after the form returns, as a function of
the form result, the rule snapshots before and after the external call, and
the stores.  `none` from the form means the whole body is skipped. -/
def addOrEditEffects (isEdit : Bool) (oldRuleNum : String)
    (formResult : Option (String × String × String))
    (rulesBefore rulesAfterFetch : List (String × String))
    (services notes : Store) : EffectResult :=
  match formResult with
  | none => ⟨[], notes, services, [], none⟩
  | some (cmd, svcText, noteText) =>
    if isEdit then
      let services' :=
        if svcText ≠ "" then dictInsert services oldRuleNum svcText
        else if dictHas services oldRuleNum then dictRemove services oldRuleNum
        else services
      let notes' :=
        if noteText ≠ "" then dictInsert notes oldRuleNum noteText
        else if dictHas notes oldRuleNum then dictRemove notes oldRuleNum
        else notes
      ⟨["sudo ufw delete " ++ oldRuleNum,
        "sudo ufw insert " ++ oldRuleNum ++ " " ++ cmd],
       notes', services', ["services.txt", "notes.txt"],
       some "Rule applied successfully."⟩
    else
      match ruleDiff rulesBefore rulesAfterFetch with
      | [] =>
        ⟨["sudo ufw " ++ cmd], notes, services, [],
         some "Rule applied successfully."⟩
      | r :: _ =>
        let newRuleNum := pyStripSet "[] ".data r.1
        let services' :=
          if svcText ≠ "" then dictInsert services newRuleNum svcText else services
        let notes' :=
          if noteText ≠ "" then dictInsert notes newRuleNum noteText else notes
        ⟨["sudo ufw " ++ cmd], notes', services',
         (if svcText ≠ "" then ["services.txt"] else []) ++
           (if noteText ≠ "" then ["notes.txt"] else []),
         some "Rule applied successfully."⟩

/-- `_confirm_action`: the typed answer is stripped, lowercased and compared
to "y". -/
def confirmAction (answer : String) : Bool := pyLower (pyStrip answer) == "y"

/-- `_delete_firewall_rule` given the rule list, the selected row, the typed
confirmation answer, and the stores (the external delete call is assumed to
succeed; its error branch changes only the status message). -/
def deleteFirewallRule (rules : List (String × String)) (selectedIndex : Nat)
    (answer : String) (notes services : Store) : EffectResult :=
  if rules.isEmpty || rules.length ≤ selectedIndex then
    ⟨[], notes, services, [], some "No rule selected to delete."⟩
  else
    let ruleNumStr := pyStripSet "[] ".data (rules.getD selectedIndex ("", "")).1
    if !pyIsDigit ruleNumStr then
      ⟨[], notes, services, [], some "This line is not a deletable rule."⟩
    else if confirmAction answer then
      let (notes', services') := deleteReindexBoth notes services (pyInt ruleNumStr)
      ⟨["sudo ufw delete " ++ ruleNumStr], notes', services',
       ["notes.txt", "services.txt"],
       some ("Rule " ++ ruleNumStr ++ " deleted successfully.")⟩
    else ⟨[], notes, services, [], none⟩

/-- `_panic_mode`'s key loop: Enter issues the reset command, ESC aborts, any
other key keeps waiting.  Returns the commands issued and the status
message. -/
def panicRun : List Nat → List String × Option String
  | [] => ([], none)
  | k :: ks =>
    if isEnterKey k then (["sudo ufw reset"], some "Firewall has been reset to default.")
    else if k == 27 then ([], some "Panic mode aborted.")
    else panicRun ks

/-! ## General-purpose lemmas about the string and dict primitives -/

theorem strData_inj {a b : String} (h : a.data = b.data) : a = b := by
  cases a; cases b; cases h; rfl

theorem strAppend_data (a b : String) : (a ++ b).data = a.data ++ b.data := rfl

/-! ## Claim C1 -/

/-- C1: the reindex step itself behaves as specified, and on the spec's
concrete example (service store 2 ↦ "web", note store 2 ↦ "note", rule 1
deleted) both stores are shifted to index 1.  But the dispatch
`if data_dict == self.notes` compares dicts by value, so the claim's
"applied independently to both stores" fails when the pre-delete services
dict happens to equal the reindexed notes dict: with notes 2 ↦ "x" and
services 1 ↦ "x", deleting rule 1 leaves the in-memory notes empty and the
services un-reindexed, instead of the independent result
(notes 1 ↦ "x", services empty). -/
theorem c1_reindex_alias_bug :
    deleteReindexBoth [("2", "note")] [("2", "web")] 1 =
      ([("1", "note")], [("1", "web")])
    ∧ reindexAfterDelete [("1", "a"), ("2", "b"), ("3", "c")] 2 =
      [("1", "a"), ("2", "c")]
    ∧ deleteReindexBoth [("2", "x")] [("1", "x")] 1 = ([], [("1", "x")])
    ∧ (reindexAfterDelete [("2", "x")] 1, reindexAfterDelete [("1", "x")] 1) =
      ([("1", "x")], [])
    ∧ deleteReindexBoth [("2", "x")] [("1", "x")] 1 ≠
      (reindexAfterDelete [("2", "x")] 1, reindexAfterDelete [("1", "x")] 1) :=
  ⟨by decide, by decide, by decide, by decide, by decide⟩

/-! ## Claim C4 -/

/-- C4: with a port that is not a non-empty all-digit string, the commit
fails validation, no command string is produced, and the body of
`_add_or_edit_rule` is skipped entirely: no commands, no store changes, no
file writes. -/
theorem c4_invalid_port_no_command :
    ∀ (s : FormState), pyIsDigit s.port = false →
      formCommit s = none ∧
      ∀ (ie : Bool) (onum : String) (rb ra : List (String × String))
        (svc nts : Store),
        addOrEditEffects ie onum (formCommit s) rb ra svc nts =
          ⟨[], nts, svc, [], none⟩ := by
  intro s h
  have hc : formCommit s = none := by simp [formCommit, h]
  exact ⟨hc, fun ie onum rb ra svc nts => by rw [hc]; rfl⟩

/-- Witness for C4 at the spec's examples: port "abc" and the empty port. -/
theorem c4_invalid_port_no_command_witness :
    formCommit { initialFormState with port := "abc" } = none
    ∧ addOrEditEffects false "" (formCommit { initialFormState with port := "abc" })
        [] [] [] [] = ⟨[], [], [], [], none⟩
    ∧ formCommit initialFormState = none :=
  ⟨(c4_invalid_port_no_command _ (by decide)).1,
   (c4_invalid_port_no_command _ (by decide)).2 false "" [] [] [] [],
   (c4_invalid_port_no_command _ (by decide)).1⟩

/-! ## Claim C5 -/

/-- C5 counterexample: typing "abc" into the Port field and pressing Enter
does not leave the form open with the invalid value editable — the session
ends in the `rejected` outcome (the function returns `None`, the window is
closed, and the in-progress field values are discarded). -/
theorem c5_counterexample :
    runForm initialFormState [9, 9, 9, 97, 98, 99, 10] =
      FormOutcome.rejected
        { actionIdx := 0, directionIdx := 0, protocolIdx := 0, port := "abc",
          fromIp := "any", service := "", note := "", currentField := 3 }
    ∧ formReturn (runForm initialFormState [9, 9, 9, 97, 98, 99, 10]) = none :=
  ⟨by decide, by decide⟩

/-- C5 amended: when commit fails port validation the commit is rejected and
nothing is returned, but the form closes rather than staying open — the
Enter key immediately ends the session in the `rejected` outcome and the
in-progress values are discarded (a later invocation starts fresh). -/
theorem c5_rejected_closes_form :
    ∀ (s : FormState) (ks : List Nat), pyIsDigit s.port = false →
      runForm s (10 :: ks) = FormOutcome.rejected s
      ∧ formReturn (FormOutcome.rejected s) = none := by
  intro s ks h
  exact ⟨by simp [runForm, isEnterKey, h], rfl⟩

/-- Witness for C5 at a concrete rejected commit. -/
theorem c5_rejected_closes_form_witness :
    runForm { initialFormState with port := "abc" } [10] =
      FormOutcome.rejected { initialFormState with port := "abc" }
    ∧ formReturn (FormOutcome.rejected { initialFormState with port := "abc" }) =
      none :=
  c5_rejected_closes_form { initialFormState with port := "abc" } [] (by decide)

/-! ## Claim C10 -/

/-- C10: loading fully replaces the in-memory stores — the result is the
parse of the file contents, independent of the stores' prior contents, and
loading twice equals loading once. -/
theorem c10_load_replaces :
    ∀ (n1 s1 n2 s2 : Store) (nf sf : String),
      setupAndLoad n1 s1 nf sf = setupAndLoad n2 s2 nf sf
      ∧ setupAndLoad n1 s1 nf sf = (loadStore nf, loadStore sf)
      ∧ setupAndLoad (setupAndLoad n1 s1 nf sf).1 (setupAndLoad n1 s1 nf sf).2
          nf sf = setupAndLoad n1 s1 nf sf := by
  intro n1 s1 n2 s2 nf sf
  exact ⟨rfl, rfl, rfl⟩

/-! ## Claim C3 -/

/-- C3: command building is deterministic with the fixed token order
`<action> <direction>`, then ` from <remoteAddress>` only when the remote
address is not the neutral "any", then ` to any port <port>`, then
` proto <protocol>` only when the protocol is not "any"; concretely the two
field sets of the spec build exactly the expected strings. -/
theorem c3_command_builder :
    (∀ s : FormState, pyIsDigit s.port = true →
      formCommit s = some (actionOf s ++ " " ++ directionOf s
          ++ (if pyLower s.fromIp ≠ "any" then " from " ++ s.fromIp else "")
          ++ " to any port " ++ s.port
          ++ (if pyLower (protocolOf s) ≠ "any" then " proto " ++ protocolOf s
              else ""),
        s.service, s.note))
    ∧ formCommit { initialFormState with port := "22" } =
        some ("allow in to any port 22 proto tcp", "", "")
    ∧ formCommit { initialFormState with port := "22", fromIp := "10.0.0.5" } =
        some ("allow in from 10.0.0.5 to any port 22 proto tcp", "", "") := by
  refine ⟨?_, by decide, by decide⟩
  intro s h
  simp only [formCommit, h, if_true]
  refine congrArg some (congrArg (·, s.service, s.note) ?_)
  unfold buildCmd
  apply strData_inj
  split_ifs <;> simp [strAppend_data]

/-- Witness for C3: a committed field set with a non-neutral remote address
and protocol "udp". -/
theorem c3_command_builder_witness :
    formCommit
        { actionIdx := 1, directionIdx := 1, protocolIdx := 1, port := "8080",
          fromIp := "192.168.0.7", service := "", note := "", currentField := 0 } =
      some (actionOf
            { actionIdx := 1, directionIdx := 1, protocolIdx := 1, port := "8080",
              fromIp := "192.168.0.7", service := "", note := "", currentField := 0 }
          ++ " " ++ "out"
          ++ (if pyLower "192.168.0.7" ≠ "any" then " from " ++ "192.168.0.7" else "")
          ++ " to any port " ++ "8080"
          ++ (if pyLower "udp" ≠ "any" then " proto " ++ "udp" else ""), "", "") :=
  c3_command_builder.1
    { actionIdx := 1, directionIdx := 1, protocolIdx := 1, port := "8080",
      fromIp := "192.168.0.7", service := "", note := "", currentField := 0 }
    (by decide)

/-! ## Claim C6 -/

/-- C6 counterexample: pre-populating the edit form from the rule description
"53/udp ALLOW IN Anywhere" (a udp rule) seeds the Protocol dropdown at index
0, whose value is "tcp", not "any". -/
theorem c6_counterexample :
    prepopulate ("[ 1]", "53/udp ALLOW IN Anywhere") [] [] =
      some { actionIdx := 0, directionIdx := 0, protocolIdx := 0, port := "53",
             fromIp := "any", service := "", note := "", currentField := 0 }
    ∧ protocolOf
        { actionIdx := 0, directionIdx := 0, protocolIdx := 0, port := "53",
          fromIp := "any", service := "", note := "", currentField := 0 } = "tcp"
    ∧ ("tcp" : String) ≠ "any" :=
  ⟨by decide, by decide, by decide⟩

/-- C6 amended: the protocol qualifier is indeed never recovered from the
description's free text, but the field is seeded at dropdown index 0, i.e.
"tcp" (not "any"), regardless of the description. -/
theorem c6_protocol_seeded_tcp :
    ∀ (rule : String × String) (svcs nts : Store) (st : FormState),
      prepopulate rule svcs nts = some st →
      st.protocolIdx = 0 ∧ protocolOf st = "tcp" := by
  intro rule svcs nts st h
  unfold prepopulate at h
  obtain ⟨ip, -, hst⟩ := Option.map_eq_some'.mp h
  subst hst
  exact ⟨rfl, rfl⟩

/-- Witness for C6 at the counterexample's concrete rule. -/
theorem c6_protocol_seeded_tcp_witness :
    FormState.protocolIdx
        { actionIdx := 0, directionIdx := 0, protocolIdx := 0, port := "53",
          fromIp := "any", service := "", note := "", currentField := 0 } = 0
    ∧ protocolOf
        { actionIdx := 0, directionIdx := 0, protocolIdx := 0, port := "53",
          fromIp := "any", service := "", note := "", currentField := 0 } = "tcp" :=
  c6_protocol_seeded_tcp ("[ 1]", "53/udp ALLOW IN Anywhere") [] [] _ (by decide)

/-! ## Claim C7 -/

/-- `ruleDiff before before` is always empty. -/
theorem ruleDiff_self (before : List (String × String)) :
    ruleDiff before before = [] := by
  unfold ruleDiff
  rw [List.filter_eq_nil_iff]
  intro r hr
  simp
  exact hr

/-- C7: the newly added rule is identified as the set difference
(after − before) of the `(index, description)` pair sets; on the spec's
concrete snapshots the difference is exactly the new pair `([ 3], "C")`;
with identical snapshots the difference is empty, and in that case the add
path attaches no annotation, writes no file, yet still reports success. -/
theorem c7_diff_engine :
    (∀ (before after : List (String × String)) (r : String × String),
      r ∈ ruleDiff before after ↔ (r ∈ after ∧ r ∉ before))
    ∧ ruleDiff [("[ 1]", "A"), ("[ 2]", "B")]
        [("[ 1]", "A"), ("[ 2]", "B"), ("[ 3]", "C")] = [("[ 3]", "C")]
    ∧ (∀ (before : List (String × String)), ruleDiff before before = [])
    ∧ ∀ (cmd svcText noteText : String) (before : List (String × String))
        (svcs nts : Store),
        addOrEditEffects false "" (some (cmd, svcText, noteText)) before before
            svcs nts =
          ⟨["sudo ufw " ++ cmd], nts, svcs, [], some "Rule applied successfully."⟩ := by
  refine ⟨?_, by decide, ruleDiff_self, ?_⟩
  · intro before after r
    unfold ruleDiff
    rw [List.mem_filter]
    constructor
    · rintro ⟨h1, h2⟩
      refine ⟨h1, fun hm => ?_⟩
      have hc : before.contains r = true := List.elem_eq_true_of_mem hm
      rw [hc] at h2
      cases h2
    · rintro ⟨h1, h2⟩
      refine ⟨h1, ?_⟩
      cases hc : before.contains r
      · rfl
      · exact absurd (List.mem_of_elem_eq_true hc) h2
  · intro cmd svcText noteText before svcs nts
    simp [addOrEditEffects, ruleDiff_self]

/-! ## Claim C8 -/

/-- The panic-mode loop issues no command while only non-Enter keys arrive
and ESC ends it. -/
theorem panicRun_abort (pks : List Nat)
    (h : ∀ k ∈ pks, isEnterKey k = false) :
    (panicRun (pks ++ [27])).1 = [] := by
  induction pks with
  | nil => rfl
  | cons k t ih =>
    have hk := h k (List.mem_cons_self k t)
    simp only [List.cons_append, panicRun, hk, Bool.false_eq_true, if_false]
    split
    · rfl
    · exact ih fun k hk => h k (List.mem_cons_of_mem _ hk)

/-- C8: aborting any interactive dialog before commit — ESC in the add/edit
form, a confirmation answer other than "y" (after strip/lower) for delete,
or ESC in the reset confirmation — leaves the rule list, both stores, the
annotation files and the external tool untouched: no command is issued, no
store changes, no file is written. -/
theorem c8_cancellation_no_effects :
    ∀ (ie : Bool) (onum : String) (s0 : FormState) (fks : List Nat)
      (rb ra : List (String × String)) (svc nts : Store)
      (rules : List (String × String)) (sel : Nat) (answer : String)
      (pks : List Nat),
      runForm s0 fks = FormOutcome.cancelled →
      pyLower (pyStrip answer) ≠ "y" →
      (∀ k ∈ pks, isEnterKey k = false) →
      addOrEditEffects ie onum (formReturn (runForm s0 fks)) rb ra svc nts =
          ⟨[], nts, svc, [], none⟩
      ∧ ((deleteFirewallRule rules sel answer nts svc).commands = []
         ∧ (deleteFirewallRule rules sel answer nts svc).notes = nts
         ∧ (deleteFirewallRule rules sel answer nts svc).services = svc
         ∧ (deleteFirewallRule rules sel answer nts svc).savedFiles = [])
      ∧ (panicRun (pks ++ [27])).1 = [] := by
  intro ie onum s0 fks rb ra svc nts rules sel answer pks hform hans hpks
  refine ⟨?_, ?_, panicRun_abort pks hpks⟩
  · rw [hform]
    rfl
  · have hconf : confirmAction answer = false := by
      unfold confirmAction
      exact beq_eq_false_iff_ne.mpr hans
    unfold deleteFirewallRule
    rw [hconf]
    simp only [Bool.false_eq_true, if_false]
    split
    · exact ⟨rfl, rfl, rfl, rfl⟩
    · split
      · exact ⟨rfl, rfl, rfl, rfl⟩
      · exact ⟨rfl, rfl, rfl, rfl⟩

/-- Witness for C8: ESC into the fresh form, answer "n" to the delete
confirmation, and a stray key followed by ESC in panic mode. -/
theorem c8_cancellation_no_effects_witness :
    addOrEditEffects false "" (formReturn (runForm initialFormState [27]))
        [] [] [("1", "s")] [("1", "n")] = ⟨[], [("1", "n")], [("1", "s")], [], none⟩
    ∧ ((deleteFirewallRule [("[ 1]", "A")] 0 "n" [("1", "n")] [("1", "s")]).commands = []
       ∧ (deleteFirewallRule [("[ 1]", "A")] 0 "n" [("1", "n")] [("1", "s")]).notes = [("1", "n")]
       ∧ (deleteFirewallRule [("[ 1]", "A")] 0 "n" [("1", "n")] [("1", "s")]).services = [("1", "s")]
       ∧ (deleteFirewallRule [("[ 1]", "A")] 0 "n" [("1", "n")] [("1", "s")]).savedFiles = [])
    ∧ (panicRun ([120] ++ [27])).1 = [] :=
  c8_cancellation_no_effects false "" initialFormState [27] [] [] [("1", "s")]
    [("1", "n")] [("[ 1]", "A")] 0 "n" [120] (by decide) (by decide)
    (by decide)

/-! ## Claim C9 -/

/-- Text editing never pushes a field above its maximum length. -/
theorem textEdit_length_le (v : String) (k m : Nat)
    (h : v.data.length ≤ m) : (textEdit v k m).data.length ≤ m := by
  unfold textEdit
  split
  · simp only [List.length_dropLast]
    omega
  · split
    · split
      · exact h
      · simp only [List.length_append, List.length_cons, List.length_nil]
        omega
    · exact h

/-- One key press preserves the length bounds. -/
theorem lenInv_formStep (s : FormState) (k : Nat) (h : lenInv s) :
    lenInv (formStep s k) := by
  obtain ⟨h1, h2, h3, h4⟩ := h
  unfold formStep
  split
  · exact ⟨h1, h2, h3, h4⟩
  · split
    · exact ⟨h1, h2, h3, h4⟩
    · split
      · split
        · exact ⟨h1, h2, h3, h4⟩
        · split
          · exact ⟨h1, h2, h3, h4⟩
          · exact ⟨h1, h2, h3, h4⟩
      · split
        · split
          · exact ⟨h1, h2, h3, h4⟩
          · split
            · exact ⟨h1, h2, h3, h4⟩
            · exact ⟨h1, h2, h3, h4⟩
        · split
          · split
            · exact ⟨h1, h2, h3, h4⟩
            · split
              · exact ⟨h1, h2, h3, h4⟩
              · exact ⟨h1, h2, h3, h4⟩
          · split
            · exact ⟨textEdit_length_le _ _ _ h1, h2, h3, h4⟩
            · split
              · exact ⟨h1, textEdit_length_le _ _ _ h2, h3, h4⟩
              · split
                · exact ⟨h1, h2, textEdit_length_le _ _ _ h3, h4⟩
                · exact ⟨h1, h2, h3, textEdit_length_le _ _ _ h4⟩

/-- A committed run preserves the length bounds and has a validated port. -/
theorem runForm_committed_lenInv (ks : List Nat) :
    ∀ (s0 s : FormState), lenInv s0 →
      runForm s0 ks = FormOutcome.committed s →
      lenInv s ∧ pyIsDigit s.port = true := by
  induction ks with
  | nil =>
    intro s0 s h hc
    simp only [runForm] at hc
    cases hc
  | cons k t ih =>
    intro s0 s h hc
    simp only [runForm] at hc
    split at hc
    · split at hc
      · cases hc
        exact ⟨h, by assumption⟩
      · cases hc
    · split at hc
      · cases hc
      · exact ih _ _ (lenInv_formStep s0 k h) hc

/-- C9 counterexample: editing the rule described as
"123456/tcp ALLOW IN Anywhere" pre-populates the Port field with the 6-digit
string "123456" (the parse does not truncate), and pressing Enter commits the
form with that over-long port — the claimed 5-character bound fails for
pre-populated fields. -/
theorem c9_counterexample :
    prepopulate ("[ 1]", "123456/tcp ALLOW IN Anywhere") [] [] =
      some { actionIdx := 0, directionIdx := 0, protocolIdx := 0,
             port := "123456", fromIp := "any", service := "", note := "",
             currentField := 0 }
    ∧ runForm
        { actionIdx := 0, directionIdx := 0, protocolIdx := 0,
          port := "123456", fromIp := "any", service := "", note := "",
          currentField := 0 } [10] =
      FormOutcome.committed
        { actionIdx := 0, directionIdx := 0, protocolIdx := 0,
          port := "123456", fromIp := "any", service := "", note := "",
          currentField := 0 }
    ∧ 5 < (FormState.port
        { actionIdx := 0, directionIdx := 0, protocolIdx := 0,
          port := "123456", fromIp := "any", service := "", note := "",
          currentField := 0 }).data.length :=
  ⟨by decide, by decide, by decide⟩

/-- C9 amended: every field set committed by a form session that starts from
the fresh defaults (the add flow) respects the per-field limits — port at
most 5 characters and all digits, remote address at most 15, service at most
18, note at most 43; a session pre-populated from an existing rule can
violate them, since neither the parsed port/address nor the stored
service/note texts are truncated. -/
theorem c9_fresh_form_limits :
    ∀ (ks : List Nat) (s : FormState),
      runForm initialFormState ks = FormOutcome.committed s →
      pyIsDigit s.port = true ∧ s.port.data.length ≤ 5
      ∧ s.fromIp.data.length ≤ 15 ∧ s.service.data.length ≤ 18
      ∧ s.note.data.length ≤ 43 := by
  intro ks s hc
  have h0 : lenInv initialFormState := by
    refine ⟨?_, ?_, ?_, ?_⟩ <;> decide
  obtain ⟨⟨i1, i2, i3, i4⟩, hd⟩ := runForm_committed_lenInv ks initialFormState s h0 hc
  exact ⟨hd, i1, i2, i3, i4⟩

/-- Witness for C9: navigating to Port, typing "5" and committing. -/
theorem c9_fresh_form_limits_witness :
    pyIsDigit (FormState.port
        { actionIdx := 0, directionIdx := 0, protocolIdx := 0, port := "5",
          fromIp := "any", service := "", note := "", currentField := 3 }) = true
    ∧ (FormState.port
        { actionIdx := 0, directionIdx := 0, protocolIdx := 0, port := "5",
          fromIp := "any", service := "", note := "", currentField := 3 }).data.length ≤ 5
    ∧ (FormState.fromIp
        { actionIdx := 0, directionIdx := 0, protocolIdx := 0, port := "5",
          fromIp := "any", service := "", note := "", currentField := 3 }).data.length ≤ 15
    ∧ (FormState.service
        { actionIdx := 0, directionIdx := 0, protocolIdx := 0, port := "5",
          fromIp := "any", service := "", note := "", currentField := 3 }).data.length ≤ 18
    ∧ (FormState.note
        { actionIdx := 0, directionIdx := 0, protocolIdx := 0, port := "5",
          fromIp := "any", service := "", note := "", currentField := 3 }).data.length ≤ 43 :=
  c9_fresh_form_limits [9, 9, 9, 53, 10]
    { actionIdx := 0, directionIdx := 0, protocolIdx := 0, port := "5",
      fromIp := "any", service := "", note := "", currentField := 3 }
    (by decide)

/-! ## Claim C2: helper lemmas about saved lines -/

/-- A digit character is `==`-distinct from any non-digit character. -/
theorem beq_char_false_of_digit (c x : Char) (h : c.isDigit = true)
    (hx : x.isDigit = false) : (c == x) = false := by
  cases hc : c == x
  · rfl
  · rw [eq_of_beq hc] at h
    rw [h] at hx
    cases hx

/-- Digit characters are not Python whitespace. -/
theorem isPyWs_eq_false_of_digit (c : Char) (h : c.isDigit = true) :
    isPyWs c = false := by
  unfold isPyWs
  rw [beq_char_false_of_digit c ' ' h (by decide),
    beq_char_false_of_digit c '\t' h (by decide),
    beq_char_false_of_digit c '\n' h (by decide),
    beq_char_false_of_digit c '\r' h (by decide),
    beq_char_false_of_digit c (Char.ofNat 11) h (by decide),
    beq_char_false_of_digit c (Char.ofNat 12) h (by decide)]
  rfl

/-- `dropWhile` is the identity when no element satisfies the predicate. -/
theorem dropWhile_eq_self_of_none {α : Type} (p : α → Bool) (l : List α)
    (h : ∀ c ∈ l, p c = false) : l.dropWhile p = l := by
  cases l with
  | nil => rfl
  | cons c t => simp [List.dropWhile_cons, h c (List.mem_cons_self c t)]

/-- Stripping a whitespace-free character list is the identity. -/
theorem stripL_eq_self (l : List Char) (h : ∀ c ∈ l, isPyWs c = false) :
    stripL l = l := by
  unfold stripL
  rw [dropWhile_eq_self_of_none _ _ h,
    dropWhile_eq_self_of_none _ _ (fun c hc => h c (List.mem_reverse.mp hc)),
    List.reverse_reverse]

/-- Every character of an all-digit string is a digit. -/
theorem all_digit_of_pyIsDigit (s : String) (h : pyIsDigit s = true) :
    ∀ c ∈ s.data, c.isDigit = true := by
  unfold pyIsDigit at h
  obtain ⟨-, hall⟩ := Bool.and_eq_true_iff.mp h
  exact fun c hc => List.all_eq_true.mp hall c hc

/-- `takeWhile (≠ ':')` of `key ++ ':' :: value` is the key, when the key has
no colon. -/
theorem takeWhile_append_colon (k v : List Char)
    (hk : ∀ c ∈ k, (c == ':') = false) :
    (k ++ ':' :: v).takeWhile (fun c => !(c == ':')) = k := by
  induction k with
  | nil => simp [List.takeWhile_cons]
  | cons c t ih =>
    have hc := hk c (List.mem_cons_self c t)
    simp only [List.cons_append, List.takeWhile_cons, hc, Bool.not_false,
      if_true, List.cons.injEq, true_and]
    exact ih fun x hx => hk x (List.mem_cons_of_mem c hx)

/-- `dropWhile (≠ ':')` of `key ++ ':' :: value` is `':' :: value`. -/
theorem dropWhile_append_colon (k v : List Char)
    (hk : ∀ c ∈ k, (c == ':') = false) :
    (k ++ ':' :: v).dropWhile (fun c => !(c == ':')) = ':' :: v := by
  induction k with
  | nil => simp [List.dropWhile_cons]
  | cons c t ih =>
    have hc := hk c (List.mem_cons_self c t)
    simp only [List.cons_append, List.dropWhile_cons, hc, Bool.not_false,
      if_true]
    exact ih fun x hx => hk x (List.mem_cons_of_mem c hx)

/-- A saved line contains its separating colon. -/
theorem contains_append_colon (k v : List Char) :
    (k ++ ':' :: v).contains ':' = true :=
  List.elem_eq_true_of_mem (List.mem_append_right _ (List.mem_cons_self _ _))

/-- Parsing a well-formed saved line `key:value` inserts exactly that entry:
the key is all digits (so stripping is the identity) and the value is
strip-invariant. -/
theorem parseLine_good (acc : Store) (kk vv : String)
    (hk : pyIsDigit kk = true) (hv : stripL vv.data = vv.data) :
    parseLine acc (kk.data ++ ':' :: vv.data) = dictInsert acc kk vv := by
  have hdig := all_digit_of_pyIsDigit kk hk
  have hcol : ∀ c ∈ kk.data, (c == ':') = false := fun c hc =>
    beq_char_false_of_digit c ':' (hdig c hc) (by decide)
  have hstripk : stripL kk.data = kk.data :=
    stripL_eq_self _ fun c hc => isPyWs_eq_false_of_digit c (hdig c hc)
  unfold parseLine
  rw [contains_append_colon, takeWhile_append_colon _ _ hcol,
    dropWhile_append_colon _ _ hcol]
  simp only [List.drop_succ_cons, List.drop_zero, hstripk, hv, if_true]
  have hkk : (⟨kk.data⟩ : String) = kk := rfl
  have hvv : (⟨vv.data⟩ : String) = vv := rfl
  rw [hkk, hvv, hk]
  rfl

/-- A line without a colon parses to nothing. -/
theorem parseLine_empty (acc : Store) : parseLine acc [] = acc := rfl

/-- Splitting a file at newlines peels off a newline-free first line. -/
theorem splitNL_append (a rest : List Char)
    (ha : ∀ c ∈ a, (c == '\n') = false) :
    splitNL (a ++ '\n' :: rest) = a :: splitNL rest := by
  induction a with
  | nil => simp [splitNL]
  | cons c t ih =>
    have hc : c ≠ '\n' := ne_of_beq_false (ha c (List.mem_cons_self c t))
    have iht := ih fun x hx => ha x (List.mem_cons_of_mem c hx)
    simp only [List.cons_append, splitNL, if_neg hc]
    rw [show t.append ('\n' :: rest) = t ++ '\n' :: rest from rfl, iht]

/-- Inserting a fresh key appends. -/
theorem dictInsert_fresh (d : Store) (k v : String)
    (h : dictHas d k = false) : dictInsert d k v = d ++ [(k, v)] := by
  unfold dictHas at h
  unfold dictInsert
  rw [h]
  rfl

/-- Folding `dictInsert` over entries with pairwise-distinct keys, all fresh
for the accumulator, appends them in order. -/
theorem foldl_dictInsert_eq_append (entries : Store) :
    ∀ (acc : Store), (∀ p ∈ entries, dictHas acc p.1 = false) →
      (entries.map Prod.fst).Nodup →
      List.foldl (fun a p => dictInsert a p.1 p.2) acc entries =
        acc ++ entries := by
  induction entries with
  | nil => intro acc _ _; simp
  | cons p t ih =>
    intro acc hfresh hnodup
    rw [List.map_cons, List.nodup_cons] at hnodup
    obtain ⟨hp, ht⟩ := hnodup
    rw [List.foldl_cons,
      dictInsert_fresh acc p.1 p.2 (hfresh p (List.mem_cons_self p t)),
      ih (acc ++ [(p.1, p.2)]) ?_ ht]
    · simp
    · intro q hq
      have hq1 : dictHas acc q.1 = false := hfresh q (List.mem_cons_of_mem p hq)
      have hq2 : (p.1 == q.1) = false := by
        refine beq_eq_false_iff_ne.mpr fun e => hp ?_
        rw [e]
        exact List.mem_map_of_mem Prod.fst hq
      unfold dictHas at *
      simp [List.any_append, hq1, hq2]

/-- Reloading the file written for a list of well-formed entries (digit keys,
strip-invariant newline-free values, pairwise-distinct keys) yields exactly
those entries in order. -/
theorem load_of_saved_entries :
    ∀ (entries : Store),
      (∀ p ∈ entries, pyIsDigit p.1 = true ∧ stripL p.2.data = p.2.data ∧
        ∀ c ∈ p.2.data, (c == '\n') = false) →
      ∀ (acc : Store),
        (splitNL ((entries.map lineOf).flatten)).foldl parseLine acc =
          List.foldl (fun a p => dictInsert a p.1 p.2) acc entries := by
  intro entries
  induction entries with
  | nil => intro _ acc; rfl
  | cons p t ih =>
    intro hgood acc
    obtain ⟨h1, h2, h3⟩ := hgood p (List.mem_cons_self p t)
    have hnl : ∀ c ∈ (p.1.data ++ ':' :: p.2.data), (c == '\n') = false := by
      intro c hc
      rcases List.mem_append.mp hc with h | h
      · exact beq_char_false_of_digit c '\n'
          (all_digit_of_pyIsDigit p.1 h1 c h) (by decide)
      · rcases List.mem_cons.mp h with rfl | h
        · decide
        · exact h3 c h
    have hflat : ((p :: t).map lineOf).flatten =
        (p.1.data ++ ':' :: p.2.data) ++ '\n' :: ((t.map lineOf).flatten) := by
      simp [lineOf, List.flatten_cons]
    rw [hflat, splitNL_append _ _ hnl, List.foldl_cons,
      parseLine_good acc p.1 p.2 h1 h2, List.foldl_cons]
    exact ih (fun q hq => hgood q (List.mem_cons_of_mem p hq)) _

/-- Sorted insertion is a permutation. -/
theorem insertSorted_perm (p : String × String) (l : Store) :
    List.Perm (insertSorted p l) (p :: l) := by
  induction l with
  | nil => exact List.Perm.refl _
  | cons q t ih =>
    unfold insertSorted
    split
    · exact (ih.cons q).trans (List.Perm.swap p q t)
    · exact List.Perm.refl _

/-- The save-time sort is a permutation. -/
theorem sortByNumKey_perm (l : Store) : List.Perm (sortByNumKey l) l := by
  induction l with
  | nil => exact List.Perm.refl _
  | cons p t ih =>
    unfold sortByNumKey at *
    rw [List.foldr_cons]
    exact (insertSorted_perm p _).trans (ih.cons p)

/-- Lookup at the head of a store. -/
theorem dictGet?_cons (p : String × String) (t : Store) (k : String) :
    dictGet? (p :: t) k =
      if p.1 == k then some p.2 else dictGet? t k := by
  unfold dictGet?
  cases hb : p.1 == k <;> simp [List.find?_cons, hb]

/-- Lookup at a matching head. -/
theorem dictGet?_cons_pos (p : String × String) (t : Store) (k : String)
    (h : (p.1 == k) = true) : dictGet? (p :: t) k = some p.2 := by
  rw [dictGet?_cons, if_pos h]

/-- Lookup skips a non-matching head. -/
theorem dictGet?_cons_neg (p : String × String) (t : Store) (k : String)
    (h : (p.1 == k) = false) : dictGet? (p :: t) k = dictGet? t k := by
  rw [dictGet?_cons, if_neg (by simp [h])]

/-- With pairwise-distinct keys, lookup is membership. -/
theorem dictGet?_eq_some_iff :
    ∀ (d : Store), (d.map Prod.fst).Nodup → ∀ (k v : String),
      (dictGet? d k = some v ↔ (k, v) ∈ d) := by
  intro d
  induction d with
  | nil => intro _ k v; simp [dictGet?]
  | cons p t ih =>
    intro hnd k v
    rw [List.map_cons, List.nodup_cons] at hnd
    obtain ⟨hp, ht⟩ := hnd
    cases hb : p.1 == k
    · rw [dictGet?_cons_neg p t k hb, ih ht k v, List.mem_cons]
      constructor
      · exact Or.inr
      · rintro (rfl | h)
        · simp at hb
        · exact h
    · have hk : p.1 = k := eq_of_beq hb
      rw [dictGet?_cons_pos p t k hb, List.mem_cons]
      constructor
      · rintro h
        injection h with h
        left
        rw [← hk, ← h]
      · rintro (h | h)
        · rw [← h]
        · exact absurd (hk ▸ List.mem_map_of_mem Prod.fst h) hp

/-- Absent keys look up to `none`. -/
theorem dictGet?_eq_none_iff :
    ∀ (d : Store) (k : String),
      (dictGet? d k = none ↔ ∀ p ∈ d, (p.1 == k) = false) := by
  intro d k
  induction d with
  | nil => simp [dictGet?]
  | cons p t ih =>
    cases hb : p.1 == k
    · rw [dictGet?_cons_neg p t k hb, ih]
      constructor
      · intro h q hq
        rcases List.mem_cons.mp hq with rfl | hq
        · exact hb
        · exact h q hq
      · intro h q hq
        exact h q (List.mem_cons_of_mem p hq)
    · rw [dictGet?_cons_pos p t k hb]
      constructor
      · intro h
        cases h
      · intro h
        rw [h p (List.mem_cons_self p t)] at hb
        cases hb

/-- Lookup through the digit-key filter. -/
theorem dictGet?_filter_digit :
    ∀ (d : Store) (k : String),
      dictGet? (d.filter (fun p => pyIsDigit p.1)) k =
        if pyIsDigit k = true then dictGet? d k else none := by
  intro d k
  induction d with
  | nil =>
    have hnil : dictGet? ([] : Store) k = none := rfl
    simp only [List.filter_nil, hnil, ite_self]
  | cons p t ih =>
    cases hd : pyIsDigit p.1
    · rw [List.filter_cons_of_neg (by simp [hd]), ih]
      cases hb : p.1 == k
      · rw [dictGet?_cons_neg p t k hb]
      · have hk : p.1 = k := eq_of_beq hb
        rw [← hk, hd]
        rfl
    · rw [List.filter_cons_of_pos (by simp [hd])]
      cases hb : p.1 == k
      · rw [dictGet?_cons_neg p _ k hb, dictGet?_cons_neg p t k hb, ih]
      · have hk : p.1 = k := eq_of_beq hb
        rw [dictGet?_cons_pos p _ k hb, dictGet?_cons_pos p t k hb, ← hk, hd]
        rfl

/-- C2 counterexample: the value " web " has surrounding whitespace, which
`load` strips; save-then-load therefore does not reproduce the mapping even
though its only entry has a numeric index. -/
theorem c2_counterexample :
    loadStore (saveStore [("1", " web ")]) = [("1", "web")]
    ∧ List.filter (fun p => pyIsDigit p.1) [("1", " web ")] = [("1", " web ")]
    ∧ dictGet? (loadStore (saveStore [("1", " web ")])) "1" = some "web"
    ∧ dictGet? [("1", " web ")] "1" = some " web "
    ∧ ("web" : String) ≠ " web " :=
  ⟨by decide, by decide, by decide, by decide, by decide⟩

/-- C2 amended: for an in-memory store with pairwise-distinct keys whose
numeric-keyed entries have strip-invariant, newline-free values, save
followed by load reproduces exactly the mapping restricted to numeric
indices (non-numeric entries are never written and hence dropped); without
the value hygiene condition the round trip strips the values, as the
counterexample shows. -/
theorem c2_roundtrip_amended :
    ∀ (d : Store) (k : String),
      (d.map Prod.fst).Nodup →
      (∀ p ∈ d, pyIsDigit p.1 = true → stripL p.2.data = p.2.data ∧
        ∀ c ∈ p.2.data, (c == '\n') = false) →
      dictGet? (loadStore (saveStore d)) k =
        if pyIsDigit k = true then dictGet? d k else none := by
  intro d k hnodup hclean
  have hsub : List.Sublist ((d.filter (fun p => pyIsDigit p.1)).map Prod.fst)
      (d.map Prod.fst) := (List.filter_sublist d).map Prod.fst
  have hnodup_vf : ((d.filter (fun p => pyIsDigit p.1)).map Prod.fst).Nodup :=
    hnodup.sublist hsub
  have hperm : List.Perm (sortByNumKey (d.filter (fun p => pyIsDigit p.1)))
      (d.filter (fun p => pyIsDigit p.1)) :=
    sortByNumKey_perm _
  have hnodup_e : ((sortByNumKey (d.filter (fun p => pyIsDigit p.1))).map
      Prod.fst).Nodup := ((hperm.map Prod.fst).nodup_iff).mpr hnodup_vf
  have hgood : ∀ p ∈ sortByNumKey (d.filter (fun p => pyIsDigit p.1)),
      pyIsDigit p.1 = true ∧ stripL p.2.data = p.2.data ∧
        ∀ c ∈ p.2.data, (c == '\n') = false := by
    intro p hp
    have hpf : p ∈ d.filter (fun p => pyIsDigit p.1) := hperm.mem_iff.mp hp
    have hpd : p ∈ d := List.mem_of_mem_filter hpf
    have hdig : pyIsDigit p.1 = true := by
      have := List.of_mem_filter hpf
      simpa using this
    exact ⟨hdig, hclean p hpd hdig⟩
  have hload : loadStore (saveStore d) =
      sortByNumKey (d.filter (fun p => pyIsDigit p.1)) := by
    unfold loadStore loadInto saveStore dictClear
    rw [load_of_saved_entries _ hgood []]
    rw [foldl_dictInsert_eq_append _ [] (fun p _ => rfl) hnodup_e]
    rfl
  rw [hload, ← dictGet?_filter_digit d k]
  cases hv : dictGet? (d.filter (fun p => pyIsDigit p.1)) k with
  | none =>
    rw [(dictGet?_eq_none_iff _ k).mpr]
    intro p hp
    exact (dictGet?_eq_none_iff _ k).mp hv p (hperm.mem_iff.mp hp)
  | some v =>
    exact (dictGet?_eq_some_iff _ hnodup_e k v).mpr
      (hperm.mem_iff.mpr ((dictGet?_eq_some_iff _ hnodup_vf k v).mp hv))

/-- Witness for C2 on a store with out-of-order numeric keys and one
non-numeric entry. -/
theorem c2_roundtrip_amended_witness :
    dictGet? (loadStore (saveStore [("2", "b"), ("1", "a"), ("x", "z")])) "1" =
      (if pyIsDigit "1" = true
        then dictGet? [("2", "b"), ("1", "a"), ("x", "z")] "1" else none) :=
  c2_roundtrip_amended [("2", "b"), ("1", "a"), ("x", "z")] "1" (by decide)
    (by decide)

end UFWManager
